import Mathlib

/-
Verification development for the scholarly web annotation server.

Part 1 embeds the request-parameter parsing module
(src/app/parse/headers_params.py) as pure Lean functions over an explicit
request value; Python exceptions become an error type threaded through
Except, and the Python dict becomes an association list with insert-or-
replace-first semantics.

Part 2 embeds the annotation store core (the Annotation model, the primary
store, the search-index adapter, the chain resolver and the propagation
engine).  The store implementation itself is not part of the source tree
that was provided (only its test suite is), so those definitions are
modelled from the specification, as their doc comments state; they carry
the observable behaviour the tests exercise: validation, conflict and
not-found errors, target-index buckets, target-list resolution with a
visited set, and breadth-first propagation of updates and deletes along
annotation chains.
-/

/-- Generic association-list lookup; models Python dict.get returning None
when the key is absent (first matching key wins, as in the dicts built
here, which never hold duplicate keys). -/
def alookup {β : Type} : List (String × β) → String → Option β
  | [], _ => none
  | (k, v) :: rest, i => if k = i then some v else alookup rest i

/-- Association-list insert-or-replace: models Python dict assignment
d[k] = v (replaces the value in place if the key exists, appends
otherwise). -/
def dictSet {β : Type} : List (String × β) → String → β → List (String × β)
  | [], k, v => [(k, v)]
  | (k2, v2) :: rest, k, v =>
    if k2 = k then (k, v) :: rest else (k2, v2) :: dictSet rest k v

/-- Split a string on a single-character separator, as Python str.split
does for the one-character separators used by the parsing module
(so the empty string yields a singleton list holding the empty string). -/
def splitChAux (c : Char) : List Char → List Char → List String
  | [], cur => [String.mk cur.reverse]
  | d :: rest, cur =>
    if d = c then String.mk cur.reverse :: splitChAux c rest []
    else splitChAux c rest (d :: cur)

/-- Python-style split on one character. -/
def splitOnCh (c : Char) (s : String) : List String := splitChAux c s.toList []

/-- Python str.strip(ch) for a one-character argument: removes every
leading and trailing occurrence of the character. -/
def stripChar (c : Char) (s : String) : String :=
  String.mk (((s.toList.dropWhile (fun d => decide (d = c))).reverse.dropWhile
    (fun d => decide (d = c))).reverse)

/-- Python str.strip() with no argument: removes leading and trailing
whitespace. -/
def trimStr (s : String) : String :=
  String.mk (((s.toList.dropWhile (fun d => d.isWhitespace)).reverse.dropWhile
    (fun d => d.isWhitespace)).reverse)

/-- The single-quote character, kept out of string literals. -/
def sqc : String := String.mk [Char.ofNat 39]

/-- Values stored in the params dict assembled by get_params: Python is
dynamically typed, so the dict mixes strings, ints, booleans, None,
string lists and one-entry filter dicts. -/
inductive PVal where
  | str (s : String)
  | int (n : Int)
  | bool (b : Bool)
  | nil
  | strs (l : List String)
  | filt (l : List (String × List String))
deriving DecidableEq

/-- Exceptions raised by the parsing module: InvalidUsage and
PermissionError from models.error, and Python builtin ValueError,
KeyError and IndexError. -/
inductive WebError where
  | invalidUsage (message : String)
  | permissionError (message : String)
  | valueError
  | keyError
  | indexError
deriving DecidableEq

/-- An incoming HTTP request as the parsing module sees it: query
parameters (request.args), headers, and the authenticated username from
the flask global g.user (none models the AttributeError of an anonymous
request). -/
structure HRequest where
  args : List (String × String)
  headers : List (String × String)
  user : Option String
deriving DecidableEq

/-- Dict of parameters produced by get_params. -/
abbrev Params := List (String × PVal)

/-- Python int(s): optional sign after stripping whitespace, then at
least one ASCII digit; raises ValueError otherwise. -/
def pyInt (s : String) : Except WebError Int :=
  let chars := (trimStr s).toList
  let core := match chars with
    | c :: rest => if c = Char.ofNat 45 ∨ c = Char.ofNat 43 then rest else chars
    | [] => []
  if core = [] then .error .valueError
  else if core.all (fun c => c.isDigit) then
    let mag : Nat := core.foldl (fun a c => a * 10 + (c.toNat - 48)) 0
    if chars.head? = some (Char.ofNat 45) then .ok (-(mag : Int)) else .ok ((mag : Int))
  else .error .valueError

/-- Loop body of parse_prefer_header: each semicolon-separated part must
split on a single equals sign into key and value (ValueError otherwise,
from Python tuple unpacking); the value is stripped of double then
single quotes. -/
def parsePreferParts : List String → List (String × String) →
    Except WebError (List (String × String))
  | [], prefer => .ok prefer
  | part :: rest, prefer =>
    match splitOnCh (Char.ofNat 61) part with
    | [k, v] =>
      parsePreferParts rest
        (dictSet prefer k (stripChar (Char.ofNat 39) (stripChar (Char.ofNat 34) v)))
    | _ => .error .valueError

/-- parse_prefer_header from headers_params.py: empty dict when the
Prefer header is missing or empty (falsy); otherwise parse key=value
parts, and when return=representation copy the fragment after the hash
of the include value into view (KeyError when include is absent,
IndexError when it has no hash). -/
def parse_prefer_header (headers : List (String × String)) :
    Except WebError (List (String × String)) :=
  match alookup headers "Prefer" with
  | none => .ok []
  | some s =>
    if s = "" then .ok []
    else
      match parsePreferParts (splitOnCh (Char.ofNat 59) (trimStr s)) [] with
      | .error e => .error e
      | .ok prefer =>
        if alookup prefer "return" = some "representation" then
          match alookup prefer "include" with
          | none => .error .keyError
          | some inc =>
            match splitOnCh (Char.ofNat 35) inc with
            | _ :: v :: _ => .ok (dictSet prefer "view" v)
            | _ => .error .indexError
        else .ok prefer

/-- determine_view_preference: the view from the Prefer header, defaulting
to PreferMinimalContainer. -/
def determine_view_preference (headers : List (String × String)) :
    Except WebError String :=
  match parse_prefer_header headers with
  | .error e => .error e
  | .ok prefer => .ok ((alookup prefer "view").getD "PreferMinimalContainer")

/-- interpret_header: stores the view preference, then the username from
g.user; an anonymous request (AttributeError) stores None, or raises
PermissionError when anonymous access is not allowed. -/
def interpret_header (r : HRequest) (params : Params) (anon_allowed : Bool) :
    Except WebError Params :=
  match determine_view_preference r.headers with
  | .error e => .error e
  | .ok v =>
    let params := dictSet params "view" (.str v)
    match r.user with
    | some u => .ok (dictSet params "username" (.str u))
    | none =>
      if anon_allowed then .ok (dictSet params "username" .nil)
      else .error (.permissionError "Anonymous access with this method is not allowed")

/-- get_access_status: None when the parameter is missing or empty
(falsy); otherwise the comma-separated levels, each of which must be
private, shared or public (InvalidUsage otherwise). -/
def get_access_status (r : HRequest) : Except WebError (Option (List String)) :=
  match alookup r.args "access_status" with
  | none => .ok none
  | some s =>
    if s = "" then .ok none
    else
      let levels := splitOnCh (Char.ofNat 44) s
      if levels.all (fun lv => decide (lv = "private" ∨ lv = "shared" ∨ lv = "public")) then
        .ok (some levels)
      else
        .error (.invalidUsage (sqc ++ "access_status" ++ sqc ++
          " parameter should be either " ++ sqc ++ "private" ++ sqc ++ ", " ++
          sqc ++ "shared" ++ sqc ++ " or " ++ sqc ++ "public" ++ sqc))

/-- get_share_permissions: comma-split can_see and can_edit when present
and non-empty (truthy). -/
def get_share_permissions (r : HRequest) (params : Params) : Params :=
  let params := match alookup r.args "can_see" with
    | some s => if s = "" then params else dictSet params "can_see" (.strs (splitOnCh (Char.ofNat 44) s))
    | none => params
  match alookup r.args "can_edit" with
  | some s => if s = "" then params else dictSet params "can_edit" (.strs (splitOnCh (Char.ofNat 44) s))
  | none => params

/-- determine_access: stores the access status and, when it contains
shared, the share permissions. -/
def determine_access (r : HRequest) (params : Params) : Except WebError Params :=
  match get_access_status r with
  | .error e => .error e
  | .ok st =>
    let params := dictSet params "access_status"
      (match st with | none => .nil | some l => .strs l)
    match st with
    | some l => if "shared" ∈ l then .ok (get_share_permissions r params) else .ok params
    | none => .ok params

/-- Second half of determine_page_view: the iris parameter, when present,
is parsed as an int and stored; an iris of 0 switches the view to
PreferContainedDescriptions. -/
def applyIris (r : HRequest) (params : Params) : Except WebError Params :=
  match alookup r.args "iris" with
  | none => .ok params
  | some s =>
    match pyInt s with
    | .error e => .error e
    | .ok n =>
      let params := dictSet params "iris" (.int n)
      if n = 0 then .ok (dictSet params "view" (.str "PreferContainedDescriptions"))
      else .ok params

/-- determine_page_view from headers_params.py, verbatim: params["page"]
is always set to 0 first; when a page parameter is present its parsed
value is stored under the key "page " (with a trailing space, exactly as
the source writes it) and the view becomes PreferContainedIRIs; then the
iris parameter is handled. -/
def determine_page_view (r : HRequest) (params : Params) : Except WebError Params :=
  let params := dictSet params "page" (.int 0)
  match alookup r.args "page" with
  | none => applyIris r params
  | some s =>
    match pyInt s with
    | .error e => .error e
    | .ok n =>
      applyIris r (dictSet (dictSet params "page " (.int n)) "view" (.str "PreferContainedIRIs"))

/-- determine_annotation_type: copies the type parameter when present
(an is-not-None check, so the empty string is copied too). -/
def determine_anno_type (r : HRequest) (params : Params) : Params :=
  match alookup r.args "type" with
  | some t => dictSet params "type" (.str t)
  | none => params

/-- determine_representation: include_permissions defaults to False and
becomes True only when the parameter equals the string true. -/
def determine_representation (r : HRequest) (params : Params) : Params :=
  let inc := alookup r.args "include_permissions"
  let params := dictSet params "include_permissions" (.bool false)
  if inc = some "true" then dictSet params "include_permissions" (.bool true) else params

/-- parse_search_parameters from headers_params.py, verbatim: a truthy
target_id builds a one-entry filter dict, and a truthy target_type then
assigns a fresh one-entry filter dict to the same key, overwriting (not
merging with) the target_id one. -/
def parse_search_parameters (r : HRequest) (params : Params) : Params :=
  let params := match alookup r.args "target_id" with
    | some s =>
      if s = "" then params
      else dictSet params "filter" (.filt [("target_id", splitOnCh (Char.ofNat 44) s)])
    | none => params
  match alookup r.args "target_type" with
  | some s =>
    if s = "" then params
    else dictSet params "filter" (.filt [("target_type", splitOnCh (Char.ofNat 44) s)])
  | none => params

/-- get_params: the top-level pipeline of headers_params.py, in source
order: interpret_header, determine_access, determine_page_view,
determine_annotation_type, determine_representation,
parse_search_parameters. -/
def get_params (r : HRequest) (anon_allowed : Bool) : Except WebError Params :=
  match interpret_header r [] anon_allowed with
  | .error e => .error e
  | .ok p1 =>
    match determine_access r p1 with
    | .error e => .error e
    | .ok p2 =>
      match determine_page_view r p2 with
      | .error e => .error e
      | .ok p3 =>
        .ok (parse_search_parameters r (determine_representation r (determine_anno_type r p3)))

/-- Modelled from the spec: a target descriptor of an annotation record
(models/annotation.py is not in the provided tree).  Each descriptor has
the id of the referenced resource or annotation and a type marking
whether the referenced entity is itself an annotation; the optional
selector is opaque to the core and omitted. -/
structure Target where
  id : String
  type : String
deriving DecidableEq

/-- Modelled from the spec: an annotation record (models/annotation.py is
not in the provided tree): id, document type, target descriptors, opaque
metadata represented by motivation, and the created/modified timestamps
the store maintains. -/
structure Anno where
  id : String
  type : String
  target : List Target
  motivation : String
  created : Nat
  modified : Nat
deriving DecidableEq

/-- Modelled from the spec: the AnnotationError taxonomy of
models/annotation_store.py (not in the provided tree): ValidationError
for structurally invalid annotations, NotFoundError for unknown ids,
ConflictError for duplicate ids on create. -/
inductive AnnoError where
  | validationError (message : String)
  | notFoundError (message : String)
  | conflictError (message : String)
deriving DecidableEq

/-- Modelled from the spec: deterministic id assignment by the store
(the real store draws a fresh UUID; a counter models freshness). -/
def genId (n : Nat) : String := "urn:uuid:" ++ toString n

/-- Lookup environment for the chain resolver: each annotation id mapped
to its direct target descriptors (the store or index projected down to
what the resolver reads). -/
abbrev Env := List (String × List Target)

def envKeys (env : Env) : List String := env.map Prod.fst

/-- Number of environment ids not yet visited; the decreasing measure of
the resolver and the propagation engine. -/
def cardU (keys : List String) (visited : List String) : Nat :=
  (keys.toFinset \ visited.toFinset).card

/-- Total number of target descriptors in the environment plus one;
bounds how much one resolver step can grow the worklist. -/
def envWeight (env : Env) : Nat := 1 + (env.map (fun p => p.2.length)).sum

/-- Modelled from the spec: one expansion step of the Chain Resolver of
models/annotation_store.py (not in the provided tree).  A target that is
itself of annotation type is looked up and contributes its own target
descriptors; a terminal target, or an annotation id that cannot be
found, contributes nothing. -/
def succTargets (env : Env) (t : Target) : List Target :=
  if t.type = "Annotation" then (alookup env t.id).getD [] else []

/-- Modelled from the spec: the Chain Resolver walk of
models/annotation_store.py (not in the provided tree).  The accumulator
is both the visited set and the output: a worklist item whose id was
already emitted is skipped (the cycle policy), otherwise its id is
appended and its successor targets join the end of the worklist
(breadth-first), so the output is an ordered, deduplicated sequence of
every identifier encountered, direct targets first. -/
def resolve (env : Env) (acc : List String) (wl : List Target) : List String :=
  match wl with
  | [] => acc
  | t :: rest =>
    if t.id ∈ acc then resolve env acc rest
    else resolve env (acc ++ [t.id]) (rest ++ succTargets env t)
termination_by cardU (envKeys env) acc * envWeight env + wl.length
decreasing_by
  · simp only [List.length_cons]
    omega
  · rename_i hmem
    have hsub : ∀ (v : List String) (x : String),
        (envKeys env).toFinset \ (v ++ [x]).toFinset ⊆ (envKeys env).toFinset \ v.toFinset := by
      intro v x
      apply Finset.sdiff_subset_sdiff (le_refl _)
      simp [List.toFinset_append]
    have hle : cardU (envKeys env) (acc ++ [t.id]) ≤ cardU (envKeys env) acc :=
      Finset.card_le_card (hsub acc t.id)
    by_cases hst : succTargets env t = []
    · rw [hst]
      have := Nat.mul_le_mul_right (envWeight env) hle
      simp only [List.length_append, List.length_cons, List.length_nil]
      omega
    · have hal : ∀ (l : Env) (i : String) (v : List Target),
          alookup l i = some v → (i, v) ∈ l := by
        intro l
        induction l with
        | nil => intro i v h; simp [alookup] at h
        | cons p rest2 ih =>
          intro i v h
          obtain ⟨k, w⟩ := p
          rw [alookup] at h
          split at h
          · rename_i heq
            cases h
            simp_all
          · right
            exact ih i v h
      have hkw : t.id ∈ envKeys env ∧ (succTargets env t).length + 1 ≤ envWeight env := by
        rw [succTargets] at hst ⊢
        split at hst
        case isTrue hty =>
          rw [if_pos hty]
          cases hl : alookup env t.id with
          | none => rw [hl] at hst; simp at hst
          | some ts =>
            simp only [Option.getD_some]
            have hm := hal env t.id ts hl
            have hmem2 : ts.length ∈ env.map (fun p => p.2.length) :=
              List.mem_map.mpr ⟨(t.id, ts), hm, rfl⟩
            have hle2 : ts.length ≤ (env.map (fun p => p.2.length)).sum :=
              List.single_le_sum (by intro x _; omega) _ hmem2
            refine ⟨List.mem_map.mpr ⟨(t.id, ts), hm, rfl⟩, ?_⟩
            simp [envWeight]
            omega
        case isFalse hty => simp at hst
      obtain ⟨hkey, hb⟩ := hkw
      have h1 : cardU (envKeys env) (acc ++ [t.id]) < cardU (envKeys env) acc := by
        apply Finset.card_lt_card
        rw [Finset.ssubset_iff_of_subset (hsub acc t.id)]
        refine ⟨t.id, ?_, ?_⟩
        · simp [hkey, hmem]
        · simp [List.toFinset_append]
      have m1 : (cardU (envKeys env) (acc ++ [t.id]) + 1) * envWeight env
          ≤ cardU (envKeys env) acc * envWeight env :=
        Nat.mul_le_mul_right (envWeight env) (by omega)
      have m2 : (cardU (envKeys env) (acc ++ [t.id]) + 1) * envWeight env
          = cardU (envKeys env) (acc ++ [t.id]) * envWeight env + envWeight env := by ring
      simp only [List.length_append, List.length_cons]
      omega

/-- Modelled from the spec: the Chain Resolver entry point
(get_target_list of models/annotation_store.py, not in the provided
tree): resolve the annotation's direct target descriptors against the
environment, starting from an empty visited set. -/
def getTargetList (env : Env) (ts : List Target) : List String := resolve env [] ts

/-- First-occurrence deduplication of a list of ids, used to state the
direct-targets-first property of the resolver output. -/
def visitIds (acc : List String) (ids : List String) : List String :=
  ids.foldl (fun a i => if i ∈ a then a else a ++ [i]) acc

/-- Modelled from the spec: computing the target list twice in a row with
no intervening mutation, as the round-trip property describes. -/
def targetListTwice (env : Env) (ts : List Target) : List String × List String :=
  (getTargetList env ts, getTargetList env ts)

/-- Modelled from the spec: remove one id from a target-index bucket. -/
def removeId : List String → String → List String
  | [], _ => []
  | x :: rest, a => if x = a then removeId rest a else x :: removeId rest a

/-- Modelled from the spec: drop every target-index bucket entry
referencing the removed annotation; a bucket left empty is dropped
entirely (the store's test expects no keys to remain after the last
annotation for a target is removed). -/
def removeFromBuckets : List (String × List String) → String → List (String × List String)
  | [], _ => []
  | (t, ids) :: rest, a =>
    if removeId ids a = [] then removeFromBuckets rest a
    else (t, removeId ids a) :: removeFromBuckets rest a

/-- Modelled from the spec: insert an annotation id into the bucket of
one direct target id, creating the bucket when absent and avoiding
duplicate entries. -/
def bucketAdd (ti : List (String × List String)) (t a : String) :
    List (String × List String) :=
  dictSet ti t
    (if a ∈ (alookup ti t).getD [] then (alookup ti t).getD []
     else (alookup ti t).getD [] ++ [a])

/-- Modelled from the spec: insert an annotation id into the bucket of
every one of its direct target ids. -/
def addToBuckets (ti : List (String × List String)) (ids : List String) (a : String) :
    List (String × List String) :=
  ids.foldl (fun acc t => bucketAdd acc t a) ti

/-- Modelled from the spec: the in-memory Primary Store of
models/annotation_store.py (not in the provided tree): the keyed map of
annotation records, the target-to-annotation-ids secondary index, and
the counter backing fresh id assignment. -/
structure PrimaryStore where
  annos : List (String × Anno)
  target_index : List (String × List String)
  nextId : Nat
deriving DecidableEq

/-- Modelled from the spec: add_annotation of the Primary Store (not in
the provided tree): fail with ValidationError when the record has no
target, otherwise assign a fresh id, set created and modified, insert
into the map and into the bucket of every direct target id. -/
def add_anno (s : PrimaryStore) (record : Anno) (now : Nat) :
    Except AnnoError (Anno × PrimaryStore) :=
  if record.target = [] then
    .error (.validationError "annotation MUST have at least one target")
  else
    .ok ({ record with id := genId s.nextId, created := now, modified := now },
      { annos := s.annos ++
          [(genId s.nextId, { record with id := genId s.nextId, created := now, modified := now })],
        target_index := addToBuckets s.target_index (record.target.map Target.id) (genId s.nextId),
        nextId := s.nextId + 1 })

/-- Modelled from the spec: get_annotation of the Primary Store (not in
the provided tree): NotFoundError when the id is absent. -/
def get_anno (s : PrimaryStore) (i : String) : Except AnnoError Anno :=
  match alookup s.annos i with
  | some a => .ok a
  | none => .error (.notFoundError ("Annotation with id " ++ i ++ " does not exist"))

/-- Modelled from the spec: update_annotation of the Primary Store (not
in the provided tree): NotFoundError when the id is absent; otherwise
replace the stored fields except id and created, refresh modified, and
recompute the direct-target buckets (remove stale entries, add the new
ones). -/
def update_anno (s : PrimaryStore) (record : Anno) (now : Nat) :
    Except AnnoError (Anno × PrimaryStore) :=
  match alookup s.annos record.id with
  | none => .error (.notFoundError ("Annotation with id " ++ record.id ++ " does not exist"))
  | some old =>
    .ok ({ record with created := old.created, modified := now },
      { annos := dictSet s.annos record.id { record with created := old.created, modified := now },
        target_index := addToBuckets (removeFromBuckets s.target_index record.id)
          (record.target.map Target.id) record.id,
        nextId := s.nextId })

/-- Modelled from the spec: remove one key from the annotation map. -/
def eraseKey {β : Type} : List (String × β) → String → List (String × β)
  | [], _ => []
  | (k, v) :: rest, i => if k = i then eraseKey rest i else (k, v) :: eraseKey rest i

/-- Modelled from the spec: remove_annotation of the Primary Store (not
in the provided tree): NotFoundError when the id is absent; otherwise
remove the record, remove every target-index bucket entry referencing
it, and return the removed record. -/
def remove_anno (s : PrimaryStore) (i : String) :
    Except AnnoError (Anno × PrimaryStore) :=
  match alookup s.annos i with
  | none => .error (.notFoundError ("Annotation with id " ++ i ++ " does not exist"))
  | some a =>
    .ok (a, { annos := eraseKey s.annos i,
              target_index := removeFromBuckets s.target_index i,
              nextId := s.nextId })

/-- Modelled from the spec: an indexed document: the annotation record
with its resolved target_list attached. -/
structure Doc where
  ann : Anno
  target_list : List String
deriving DecidableEq

/-- Modelled from the spec: the external search index, partitioned by
document type: a list of documents keyed by (type, id). -/
abbrev Index := List ((String × String) × Doc)

def idxKeys (idx : Index) : List String := idx.map (fun e => e.1.2)

/-- Modelled from the spec: index lookup by id across partitions. -/
def lookupById : Index → String → Option Doc
  | [], _ => none
  | e :: rest, i => if e.1.2 = i then some e.2 else lookupById rest i

/-- The index projected to the resolver's lookup environment: each
indexed annotation id mapped to its direct target descriptors. -/
def envOfIndex (idx : Index) : Env := idx.map (fun e => (e.1.2, e.2.ann.target))

/-- Modelled from the spec: the Chain Resolver run against the index. -/
def indexTargetList (idx : Index) (ts : List Target) : List String :=
  resolve (envOfIndex idx) [] ts

/-- Modelled from the spec: queryByTarget by ancestor id
(get_from_index_by_target of models/annotation_store.py, not in the
provided tree): the ids of all documents whose target_list contains the
queried id. -/
def queryTargetIds : Index → String → List String
  | [], _ => []
  | e :: rest, t =>
    if t ∈ e.2.target_list then e.2.ann.id :: queryTargetIds rest t
    else queryTargetIds rest t

/-- Modelled from the spec: replace of the Search Index Adapter:
overwrite the document with the given id, keeping the key. -/
def replaceDoc : Index → String → Doc → Index
  | [], _, _ => []
  | e :: rest, i, d => (if e.1.2 = i then (e.1, d) else e) :: replaceDoc rest i d

/-- Modelled from the spec: delete of the Search Index Adapter: remove
the document with the given id. -/
def deleteDoc : Index → String → Index
  | [], _ => []
  | e :: rest, i => if e.1.2 = i then deleteDoc rest i else e :: deleteDoc rest i

/-- Modelled from the spec: the breadth-first Propagation Engine of
models/annotation_store.py (not in the provided tree).  The worklist
holds annotation ids whose target_list may be stale; each unvisited id
still present in the index gets its target_list recomputed fresh from
current state and its document replaced, then the index is queried for
its own dependents, which join the end of the worklist; the visited set
is the cycle-safety discipline that bounds the sweep. -/
def propagate (idx : Index) (visited : List String) (wl : List String) : Index :=
  match wl with
  | [] => idx
  | b :: rest =>
    if b ∈ visited then propagate idx visited rest
    else
      match hl : lookupById idx b with
      | none => propagate idx (visited ++ [b]) rest
      | some d =>
        propagate (replaceDoc idx b { d with target_list := indexTargetList idx d.ann.target })
          (visited ++ [b])
          (rest ++ queryTargetIds
            (replaceDoc idx b { d with target_list := indexTargetList idx d.ann.target }) b)
termination_by cardU (idxKeys idx) visited * (1 + idx.length) + wl.length
decreasing_by
  · simp only [List.length_cons]
    omega
  · rename_i hmem
    have hsub : ∀ (v : List String) (x : String),
        (idxKeys idx).toFinset \ (v ++ [x]).toFinset ⊆ (idxKeys idx).toFinset \ v.toFinset := by
      intro v x
      apply Finset.sdiff_subset_sdiff (le_refl _)
      simp [List.toFinset_append]
    have hle : cardU (idxKeys idx) (visited ++ [b]) ≤ cardU (idxKeys idx) visited :=
      Finset.card_le_card (hsub visited b)
    have := Nat.mul_le_mul_right (1 + idx.length) hle
    simp only [List.length_cons]
    omega
  · rename_i hmem
    have hkeys : ∀ (l : Index) (i : String) (d2 : Doc),
        idxKeys (replaceDoc l i d2) = idxKeys l := by
      intro l i d2
      induction l with
      | nil => rfl
      | cons e rest2 ih =>
        rw [replaceDoc]
        simp only [idxKeys, List.map_cons] at ih ⊢
        rw [ih]
        split
        · rfl
        · rfl
    have hlen : ∀ (l : Index) (i : String) (d2 : Doc),
        (replaceDoc l i d2).length = l.length := by
      intro l i d2
      induction l with
      | nil => rfl
      | cons e rest2 ih =>
        rw [replaceDoc]
        simp [ih]
    have hqlen : ∀ (l : Index) (t : String), (queryTargetIds l t).length ≤ l.length := by
      intro l t
      induction l with
      | nil => simp [queryTargetIds]
      | cons e rest2 ih =>
        rw [queryTargetIds]
        split
        · simpa using ih
        · simp only [List.length_cons]
          omega
    have hsm : ∀ (l : Index) (i : String) (d2 : Doc),
        lookupById l i = some d2 → i ∈ idxKeys l := by
      intro l i d2 h
      induction l with
      | nil => simp [lookupById] at h
      | cons e rest2 ih =>
        rw [lookupById] at h
        split at h
        · rename_i heq
          simp [idxKeys, heq.symm]
        · simp only [idxKeys, List.map_cons, List.mem_cons]
          right
          exact ih h
    rw [hkeys, hlen]
    have hsub : ∀ (v : List String) (x : String),
        (idxKeys idx).toFinset \ (v ++ [x]).toFinset ⊆ (idxKeys idx).toFinset \ v.toFinset := by
      intro v x
      apply Finset.sdiff_subset_sdiff (le_refl _)
      simp [List.toFinset_append]
    have hkey : b ∈ idxKeys idx := hsm idx b d hl
    have h1 : cardU (idxKeys idx) (visited ++ [b]) < cardU (idxKeys idx) visited := by
      apply Finset.card_lt_card
      rw [Finset.ssubset_iff_of_subset (hsub visited b)]
      refine ⟨b, ?_, ?_⟩
      · simp [hkey, hmem]
      · simp [List.toFinset_append]
    have hq : (queryTargetIds
        (replaceDoc idx b { d with target_list := indexTargetList idx d.ann.target }) b).length
        ≤ idx.length := by
      have := hqlen (replaceDoc idx b { d with target_list := indexTargetList idx d.ann.target }) b
      rwa [hlen] at this
    have m1 : (cardU (idxKeys idx) (visited ++ [b]) + 1) * (1 + idx.length)
        ≤ cardU (idxKeys idx) visited * (1 + idx.length) :=
      Nat.mul_le_mul_right (1 + idx.length) (by omega)
    have m2 : (cardU (idxKeys idx) (visited ++ [b]) + 1) * (1 + idx.length)
        = cardU (idxKeys idx) (visited ++ [b]) * (1 + idx.length) + (1 + idx.length) := by ring
    simp only [List.length_append, List.length_cons]
    omega

/-- Modelled from the spec: whether the partition already holds a document
with this id (the conflict check of the index create). -/
def hasDoc : Index → String → String → Bool
  | [], _, _ => false
  | e :: rest, ty, i => if e.1.1 = ty ∧ e.1.2 = i then true else hasDoc rest ty i

/-- Modelled from the spec: add_to_index (the put of the Search Index
Adapter, models/annotation_store.py not in the provided tree): fails
with ConflictError when a document with this id already exists in this
type partition, leaving the index unchanged; otherwise creates the
document.  The returned pair carries the outcome and the index after
the call. -/
def add_to_index (idx : Index) (d : Doc) (ty : String) : Except AnnoError Unit × Index :=
  if hasDoc idx ty d.ann.id then
    (.error (.conflictError ("Annotation with id " ++ d.ann.id ++ " already exists")), idx)
  else (.ok (), idx ++ [((ty, d.ann.id), d)])

/-- Number of documents in the index. -/
def docCount (idx : Index) : Nat := idx.length

/-- Modelled from the spec: the index-backed store state
(AnnotationStore with a configured index): the index and the counter
backing fresh id assignment. -/
structure EsStore where
  index : Index
  nextId : Nat
deriving DecidableEq

/-- Modelled from the spec: add_annotation_es of
models/annotation_store.py (not in the provided tree): validate that at
least one target exists, assign a fresh id and timestamps, resolve the
target_list against the index and create the document in the partition
of the record's type. -/
def add_anno_es (s : EsStore) (record : Anno) (now : Nat) :
    Except AnnoError (Anno × EsStore) :=
  if record.target = [] then
    .error (.validationError "annotation MUST have at least one target")
  else
    match add_to_index s.index
      { ann := { record with id := genId s.nextId, created := now, modified := now },
        target_list := indexTargetList s.index record.target }
      record.type with
    | (.error e, _) => .error e
    | (.ok _, idx2) =>
      .ok ({ record with id := genId s.nextId, created := now, modified := now },
        { index := idx2, nextId := s.nextId + 1 })

/-- Modelled from the spec: update_annotation_es of
models/annotation_store.py (not in the provided tree): NotFoundError
when absent; otherwise keep created, refresh modified, resolve the new
target_list and replace the document, then capture the dependent set
(every document whose target_list held this id before the update) and
run the breadth-first propagation over it. -/
def update_anno_es (s : EsStore) (record : Anno) (now : Nat) :
    Except AnnoError (Anno × EsStore) :=
  match lookupById s.index record.id with
  | none => .error (.notFoundError ("Annotation with id " ++ record.id ++ " does not exist"))
  | some old =>
    .ok ({ record with created := old.ann.created, modified := now },
      { index := propagate
          (replaceDoc s.index record.id
            { ann := { record with created := old.ann.created, modified := now },
              target_list := indexTargetList s.index record.target })
          [record.id]
          (queryTargetIds s.index record.id),
        nextId := s.nextId })

/-- Modelled from the spec: remove_annotation_es of
models/annotation_store.py (not in the provided tree): NotFoundError
when absent; otherwise capture the dependent set before the delete,
delete the document, and run the breadth-first propagation so every
dependent's target_list is recomputed with the deleted annotation
absent from the chain. -/
def remove_anno_es (s : EsStore) (i : String) : Except AnnoError (Anno × EsStore) :=
  match lookupById s.index i with
  | none => .error (.notFoundError ("Annotation with id " ++ i ++ " does not exist"))
  | some d =>
    .ok (d.ann,
      { index := propagate (deleteDoc s.index i) [i] (queryTargetIds s.index i),
        nextId := s.nextId })

/-- An annotation record as a caller submits it (the store overwrites id
and timestamps): the fixed document type and motivation of the test
fixtures, with the given target descriptors. -/
def mkAnnoRec (ts : List Target) : Anno :=
  { id := "", type := "Annotation", target := ts, motivation := "classifying",
    created := 0, modified := 0 }

/-- The chain scenario of the update-propagation test: add annotation X
targeting terminal resource R, add annotation Y whose single target is
X with type Annotation, query the index for R, update X's target to R2,
then query the index for R2 and for R.  Returns those three id lists,
or none if any store call fails. -/
def chainUpdateScenario (R R2 TR : String) :
    Option (List String × List String × List String) :=
  match add_anno_es { index := [], nextId := 0 } (mkAnnoRec [{ id := R, type := TR }]) 0 with
  | .error _ => none
  | .ok (x, s1) =>
    match add_anno_es s1 (mkAnnoRec [{ id := x.id, type := "Annotation" }]) 0 with
    | .error _ => none
    | .ok (_, s2) =>
      match update_anno_es s2 { x with target := [{ id := R2, type := TR }] } 1 with
      | .error _ => none
      | .ok (_, s3) =>
        some (queryTargetIds s2.index R, queryTargetIds s3.index R2, queryTargetIds s3.index R)

/-- The chain scenario of the delete-propagation test: add X targeting
terminal resource R, add Y targeting X with type Annotation, query the
index for R, delete X, then query the index for R again.  Returns the
two id lists, or none if any store call fails. -/
def chainDeleteScenario (R TR : String) : Option (List String × List String) :=
  match add_anno_es { index := [], nextId := 0 } (mkAnnoRec [{ id := R, type := TR }]) 0 with
  | .error _ => none
  | .ok (x, s1) =>
    match add_anno_es s1 (mkAnnoRec [{ id := x.id, type := "Annotation" }]) 0 with
    | .error _ => none
    | .ok (_, s2) =>
      match remove_anno_es s2 x.id with
      | .error _ => none
      | .ok (_, s3) => some (queryTargetIds s2.index R, queryTargetIds s3.index R)

/-- Request of the C9 counterexample: a page parameter together with an
iris parameter equal to 0. -/
def reqPageIris : HRequest :=
  { args := [("page", "1"), ("iris", "0")], headers := [], user := some "alice" }

/-- The params dict get_params returns for reqPageIris. -/
def pageIrisParams : Params :=
  [("view", .str "PreferContainedDescriptions"), ("username", .str "alice"),
   ("access_status", PVal.nil), ("page", .int 0), ("page ", .int 1), ("iris", .int 0),
   ("include_permissions", .bool false)]

/-- Request of the C9 witness: a page parameter and no iris parameter. -/
def reqPage : HRequest := { args := [("page", "5")], headers := [], user := some "alice" }

/-- The params dict get_params returns for reqPage. -/
def reqPageParams : Params :=
  [("view", .str "PreferContainedIRIs"), ("username", .str "alice"),
   ("access_status", PVal.nil), ("page", .int 0), ("page ", .int 5),
   ("include_permissions", .bool false)]

/-- Request of the C10 witness: both a target_id and a target_type query
parameter. -/
def reqFilter : HRequest :=
  { args := [("target_id", "urn:a,urn:b"), ("target_type", "Letter")], headers := [],
    user := none }

/-- Lookup environment with a two-cycle, used to witness the resolver
properties on a cyclic input. -/
def envCyc : Env := [("a", [⟨"b", "Annotation"⟩]), ("b", [⟨"a", "Annotation"⟩])]

/-- Direct targets of an annotation that enters the cycle. -/
def tsCyc : List Target := [⟨"a", "Annotation"⟩]

/-- A concrete annotation record used by the C5, C6 and C7 witnesses. -/
def annoW : Anno :=
  { id := "urn:w", type := "Annotation", target := [⟨"urn:t", "Letter"⟩],
    motivation := "classifying", created := 3, modified := 3 }

/-- A concrete indexed document used by the C5 witness. -/
def docW : Doc := { ann := annoW, target_list := ["urn:t"] }

/-- A concrete store holding annoW, with its target bucket. -/
def storeW : PrimaryStore :=
  { annos := [("urn:w", annoW)], target_index := [("urn:t", ["urn:w"])], nextId := 1 }

/-- The record submitted by the C7 witness update: same id, new target
and motivation. -/
def annoW2 : Anno :=
  { id := "urn:w", type := "Annotation", target := [⟨"urn:t2", "Letter"⟩],
    motivation := "linking", created := 99, modified := 99 }

/-- The empty primary store, used by witnesses. -/
def storeE : PrimaryStore := { annos := [], target_index := [], nextId := 0 }

theorem alookup_dictSet_same {β : Type} (l : List (String × β)) (k : String) (v : β) :
    alookup (dictSet l k v) k = some v := by
  induction l with
  | nil => simp [dictSet, alookup]
  | cons p rest ih =>
    obtain ⟨k3, v3⟩ := p
    rw [dictSet]
    split
    · rw [alookup]
      simp
    · rename_i hne
      rw [alookup, if_neg hne]
      exact ih

theorem alookup_dictSet_ne {β : Type} (l : List (String × β)) (k : String) (v : β)
    (k2 : String) (hk : k2 ≠ k) : alookup (dictSet l k v) k2 = alookup l k2 := by
  induction l with
  | nil => simp [dictSet, alookup, Ne.symm hk]
  | cons p rest ih =>
    obtain ⟨k3, v3⟩ := p
    rw [dictSet]
    split
    · rename_i heq
      rw [alookup, alookup, heq]
      simp [Ne.symm hk]
    · rw [alookup, alookup]
      by_cases h2 : k3 = k2
      · simp [h2]
      · simp [h2, ih]

theorem resolve_acc_pre (env : Env) (acc : List String) (wl : List Target) :
    ∃ r, resolve env acc wl = acc ++ r := by
  induction acc, wl using resolve.induct env with
  | case1 acc => exact ⟨[], by simp [resolve]⟩
  | case2 acc t rest hmem ih =>
    obtain ⟨r, hr⟩ := ih
    exact ⟨r, by rw [resolve]; simp [hmem, hr]⟩
  | case3 acc t rest hmem ih =>
    obtain ⟨r, hr⟩ := ih
    refine ⟨[t.id] ++ r, ?_⟩
    rw [resolve]
    simp only [if_neg hmem, hr, List.append_assoc]

theorem resolve_nodup (env : Env) (acc : List String) (wl : List Target)
    (h : acc.Nodup) : (resolve env acc wl).Nodup := by
  induction acc, wl using resolve.induct env with
  | case1 acc => simpa [resolve] using h
  | case2 acc t rest hmem ih =>
    rw [resolve]
    simp only [if_pos hmem]
    exact ih h
  | case3 acc t rest hmem ih =>
    rw [resolve]
    simp only [if_neg hmem]
    apply ih
    simp [List.nodup_append, h, hmem]

theorem resolve_segment (env : Env) (ds : List Target) :
    ∀ (ws : List Target) (acc : List String), ∃ extra,
      resolve env acc (ds ++ ws) =
        resolve env (visitIds acc (ds.map Target.id)) (ws ++ extra) := by
  induction ds with
  | nil =>
    intro ws acc
    exact ⟨[], by simp [visitIds]⟩
  | cons d ds ih =>
    intro ws acc
    by_cases hmem : d.id ∈ acc
    · obtain ⟨e, he⟩ := ih ws acc
      refine ⟨e, ?_⟩
      rw [List.cons_append, resolve]
      simp only [if_pos hmem, he, visitIds, List.map_cons, List.foldl_cons, if_pos hmem]
    · obtain ⟨e, he⟩ := ih (ws ++ succTargets env d) (acc ++ [d.id])
      refine ⟨succTargets env d ++ e, ?_⟩
      rw [List.cons_append, resolve]
      simp only [if_neg hmem]
      rw [show ds ++ ws ++ succTargets env d = ds ++ (ws ++ succTargets env d) by
        simp [List.append_assoc]]
      rw [he]
      simp only [visitIds, List.map_cons, List.foldl_cons, if_neg hmem, List.append_assoc]

theorem resolve_mem_wl (env : Env) (acc : List String) (wl : List Target) :
    ∀ u ∈ wl, u.id ∈ resolve env acc wl := by
  induction acc, wl using resolve.induct env with
  | case1 acc => intro u hu; simp at hu
  | case2 acc t rest hmem ih =>
    intro u hu
    rw [resolve]
    simp only [if_pos hmem]
    rcases List.mem_cons.mp hu with h | h
    · subst h
      obtain ⟨r, hr⟩ := resolve_acc_pre env acc rest
      rw [hr]
      exact List.mem_append_left _ hmem
    · exact ih u h
  | case3 acc t rest hmem ih =>
    intro u hu
    rw [resolve]
    simp only [if_neg hmem]
    rcases List.mem_cons.mp hu with h | h
    · subst h
      obtain ⟨r, hr⟩ := resolve_acc_pre env (acc ++ [u.id]) (rest ++ succTargets env u)
      rw [hr]
      simp
    · exact ih u (List.mem_append_left _ h)

/-- C3: For every annotation (every lookup environment and list of direct
target descriptors, cyclic reference graphs included, since environments
are unrestricted), the Chain Resolver's target-list computation is a
total function of the inputs (its recursion is well founded because the
visited set stops the walk at any revisited identifier), and its output
is a deduplicated sequence that begins with the annotation's own direct
target ids in first-occurrence order, every direct target id being
present, with ancestor ids following in discovery order. -/
theorem resolver_props (env : Env) (ts : List Target) :
    (getTargetList env ts).Nodup ∧
    (∃ ancestors, getTargetList env ts = visitIds [] (ts.map Target.id) ++ ancestors) ∧
    (∀ u ∈ ts, u.id ∈ getTargetList env ts) := by
  refine ⟨resolve_nodup env [] ts List.nodup_nil, ?_, resolve_mem_wl env [] ts⟩
  obtain ⟨e, he⟩ : ∃ e, resolve env [] ts = resolve env (visitIds [] (ts.map Target.id)) e := by
    have h := resolve_segment env ts [] []
    simpa using h
  rw [getTargetList, he]
  exact resolve_acc_pre env _ e

/-- Witness for C3 on the cyclic environment: the membership hypothesis
is discharged at a concrete direct target. -/
theorem resolver_props_witness :
    (⟨"a", "Annotation"⟩ : Target) ∈ tsCyc ∧ "a" ∈ getTargetList envCyc tsCyc :=
  ⟨by decide, (resolver_props envCyc tsCyc).2.2 ⟨"a", "Annotation"⟩ (by decide)⟩

/-- C8: Determinism of the Chain Resolver: with a fixed lookup
environment and no intervening mutation, computing the target list twice
in succession yields the identical sequence both times (the resolver is
a pure function of the environment and the direct targets). -/
theorem resolver_deterministic (env : Env) (ts : List Target) :
    (targetListTwice env ts).1 = (targetListTwice env ts).2 := rfl

/-- C4: For every store state and every annotation record with zero
targets, the Primary Store's add fails with the ValidationError message
the test expects, so add never succeeds on such a record and no store
state is produced (the caller keeps the unchanged store). -/
theorem add_rejects_empty_target (s : PrimaryStore) (record : Anno) (now : Nat)
    (h : record.target = []) :
    add_anno s record now = .error (.validationError "annotation MUST have at least one target") := by
  simp [add_anno, h]

/-- Witness for C4 at a concrete empty-target record and store. -/
theorem add_rejects_empty_target_witness :
    (mkAnnoRec []).target = [] ∧
    add_anno storeE (mkAnnoRec []) 7
      = .error (.validationError "annotation MUST have at least one target") :=
  ⟨rfl, add_rejects_empty_target storeE (mkAnnoRec []) 7 rfl⟩

theorem hasDoc_append_self (ty i : String) (d : Doc) :
    ∀ (l : Index), hasDoc (l ++ [((ty, i), d)]) ty i = true := by
  intro l
  induction l with
  | nil => simp [hasDoc]
  | cons e rest ih =>
    rw [List.cons_append, hasDoc]
    split
    · rfl
    · exact ih

/-- C5: After a successful index create for an id in a type partition, a
second create for the same id in the same partition fails with the
ConflictError message naming the id, and the failed attempt returns the
index unchanged, so the document count is unchanged. -/
theorem index_put_conflict (idx : Index) (d : Doc) (ty : String) (idx1 : Index)
    (h : add_to_index idx d ty = (.ok (), idx1)) :
    add_to_index idx1 d ty
      = (.error (.conflictError ("Annotation with id " ++ d.ann.id ++ " already exists")), idx1) ∧
    docCount (add_to_index idx1 d ty).2 = docCount idx1 := by
  rw [add_to_index] at h
  split at h
  · simp at h
  · have hidx : idx ++ [((ty, d.ann.id), d)] = idx1 := by
      have := congrArg Prod.snd h
      simpa using this
    have hc : hasDoc idx1 ty d.ann.id = true := by
      rw [← hidx]
      exact hasDoc_append_self ty d.ann.id d idx
    constructor
    · rw [add_to_index, if_pos hc]
    · rw [add_to_index, if_pos hc]

/-- Witness for C5: a concrete first create succeeds, and the theorem
applied to it shows the second create conflicts and leaves the count
unchanged. -/
theorem index_put_conflict_witness :
    add_to_index [] docW "Annotation" = (.ok (), [(("Annotation", "urn:w"), docW)]) ∧
    (add_to_index [(("Annotation", "urn:w"), docW)] docW "Annotation"
        = (.error (.conflictError ("Annotation with id " ++ docW.ann.id ++ " already exists")),
           [(("Annotation", "urn:w"), docW)]) ∧
      docCount (add_to_index [(("Annotation", "urn:w"), docW)] docW "Annotation").2
        = docCount [(("Annotation", "urn:w"), docW)]) :=
  ⟨rfl, index_put_conflict [] docW "Annotation" [(("Annotation", "urn:w"), docW)] rfl⟩

theorem alookup_eraseKey_self {β : Type} (i : String) :
    ∀ (l : List (String × β)), alookup (eraseKey l i) i = none := by
  intro l
  induction l with
  | nil => rfl
  | cons p rest ih =>
    obtain ⟨k, v⟩ := p
    rw [eraseKey]
    split
    · exact ih
    · rename_i hne
      rw [alookup, if_neg hne]
      exact ih

theorem removeId_not_mem (a : String) : ∀ (ids : List String), a ∉ removeId ids a := by
  intro ids
  induction ids with
  | nil => simp [removeId]
  | cons x rest ih =>
    rw [removeId]
    split
    · exact ih
    · rename_i hne
      simp only [List.mem_cons]
      rintro (h | h)
      · exact hne h.symm
      · exact ih h

theorem removeFromBuckets_not_mem (a t : String) (b : List String) :
    ∀ (ti : List (String × List String)),
      alookup (removeFromBuckets ti a) t = some b → a ∉ b := by
  intro ti
  induction ti with
  | nil => intro h; simp [removeFromBuckets, alookup] at h
  | cons p rest ih =>
    obtain ⟨t0, ids⟩ := p
    intro h
    rw [removeFromBuckets] at h
    split at h
    · exact ih h
    · rw [alookup] at h
      split at h
      · cases h
        exact removeId_not_mem a ids
      · exact ih h

/-- C6: For every store state, removing a stored annotation id returns
the removed record together with a store in which a get of that id fails
with NotFoundError and no target-index bucket at all (in particular none
for the formerly-direct targets) still contains the id; removing an
absent id fails with NotFoundError. -/
theorem remove_anno_spec (s : PrimaryStore) (i : String) :
    (∀ a, alookup s.annos i = some a →
      ∃ s2, remove_anno s i = .ok (a, s2) ∧
        get_anno s2 i = .error (.notFoundError ("Annotation with id " ++ i ++ " does not exist")) ∧
        ∀ t b, alookup s2.target_index t = some b → i ∉ b) ∧
    (alookup s.annos i = none →
      remove_anno s i = .error (.notFoundError ("Annotation with id " ++ i ++ " does not exist"))) := by
  constructor
  · intro a ha
    refine ⟨{ annos := eraseKey s.annos i,
              target_index := removeFromBuckets s.target_index i,
              nextId := s.nextId }, ?_, ?_, ?_⟩
    · simp [remove_anno, ha]
    · rw [get_anno]
      simp [alookup_eraseKey_self]
    · intro t b hb
      exact removeFromBuckets_not_mem i t b s.target_index hb
  · intro h0
    simp [remove_anno, h0]

/-- Witness for C6: the stored branch at a concrete store, and the
absent branch at the empty store. -/
theorem remove_anno_spec_witness :
    (alookup storeW.annos "urn:w" = some annoW ∧
      ∃ s2, remove_anno storeW "urn:w" = .ok (annoW, s2) ∧
        get_anno s2 "urn:w"
          = .error (.notFoundError ("Annotation with id " ++ "urn:w" ++ " does not exist")) ∧
        ∀ t b, alookup s2.target_index t = some b → "urn:w" ∉ b) ∧
    (alookup storeE.annos "urn:x" = none ∧
      remove_anno storeE "urn:x"
        = .error (.notFoundError ("Annotation with id " ++ "urn:x" ++ " does not exist"))) :=
  ⟨⟨by decide, (remove_anno_spec storeW "urn:w").1 annoW (by decide)⟩,
   ⟨rfl, (remove_anno_spec storeE "urn:x").2 rfl⟩⟩

theorem bucketAdd_iff (ti : List (String × List String)) (t a u : String) :
    (∃ b, alookup (bucketAdd ti t a) u = some b ∧ a ∈ b) ↔
    (u = t ∨ ∃ b, alookup ti u = some b ∧ a ∈ b) := by
  by_cases hu : u = t
  · subst hu
    rw [bucketAdd]
    constructor
    · intro _
      exact Or.inl rfl
    · intro _
      refine ⟨_, alookup_dictSet_same ti u _, ?_⟩
      by_cases hm : a ∈ (alookup ti u).getD []
      · simp [hm]
      · simp [hm]
  · rw [bucketAdd]
    rw [show ∀ v, alookup (dictSet ti t v) u = alookup ti u from
      fun v => alookup_dictSet_ne ti t v u hu]
    simp [hu]

theorem addToBuckets_iff (a : String) :
    ∀ (ids : List String) (ti : List (String × List String)) (u : String),
      (∃ b, alookup (addToBuckets ti ids a) u = some b ∧ a ∈ b) ↔
      (u ∈ ids ∨ ∃ b, alookup ti u = some b ∧ a ∈ b) := by
  intro ids
  induction ids with
  | nil =>
    intro ti u
    simp [addToBuckets]
  | cons t ids ih =>
    intro ti u
    have hfold : addToBuckets ti (t :: ids) a = addToBuckets (bucketAdd ti t a) ids a := by
      simp [addToBuckets]
    rw [hfold, ih, bucketAdd_iff]
    simp only [List.mem_cons]
    tauto

/-- C7: For every store state, updating a record whose id is stored
replaces the stored fields except id and created (id and created are
those of the stored record; the returned record carries the caller's
type, target and motivation), sets modified to the fresh timestamp, and
recomputes the direct-target buckets so that the id sits in exactly the
buckets of the new direct target ids; updating an id not in the store
fails with NotFoundError and produces no new store state. -/
theorem update_anno_spec (s : PrimaryStore) (record : Anno) (now : Nat) :
    (∀ old, alookup s.annos record.id = some old →
      ∃ s2, update_anno s record now
          = .ok ({ record with created := old.created, modified := now }, s2) ∧
        ({ record with created := old.created, modified := now } : Anno).id = record.id ∧
        ({ record with created := old.created, modified := now } : Anno).created = old.created ∧
        ({ record with created := old.created, modified := now } : Anno).modified = now ∧
        ({ record with created := old.created, modified := now } : Anno).target = record.target ∧
        ({ record with created := old.created, modified := now } : Anno).motivation
          = record.motivation ∧
        alookup s2.annos record.id
          = some { record with created := old.created, modified := now } ∧
        ∀ t, (∃ b, alookup s2.target_index t = some b ∧ record.id ∈ b)
          ↔ t ∈ record.target.map Target.id) ∧
    (alookup s.annos record.id = none →
      update_anno s record now
        = .error (.notFoundError ("Annotation with id " ++ record.id ++ " does not exist"))) := by
  constructor
  · intro old hold
    refine ⟨{ annos := dictSet s.annos record.id { record with created := old.created, modified := now },
              target_index := addToBuckets (removeFromBuckets s.target_index record.id)
                (record.target.map Target.id) record.id,
              nextId := s.nextId }, ?_, rfl, rfl, rfl, rfl, rfl, ?_, ?_⟩
    · simp [update_anno, hold]
    · exact alookup_dictSet_same s.annos record.id _
    · intro t
      rw [addToBuckets_iff]
      constructor
      · rintro (h | ⟨b, hb, hmem⟩)
        · exact h
        · exact absurd hmem (removeFromBuckets_not_mem record.id t b s.target_index hb)
      · exact Or.inl
  · intro h0
    simp [update_anno, h0]

/-- Witness for C7: the stored branch at a concrete store, and the
absent branch at the empty store. -/
theorem update_anno_spec_witness :
    (alookup storeW.annos "urn:w" = some annoW ∧
      ∃ s2, update_anno storeW annoW2 5
          = .ok ({ annoW2 with created := annoW.created, modified := 5 }, s2) ∧
        ({ annoW2 with created := annoW.created, modified := 5 } : Anno).id = annoW2.id ∧
        ({ annoW2 with created := annoW.created, modified := 5 } : Anno).created = annoW.created ∧
        ({ annoW2 with created := annoW.created, modified := 5 } : Anno).modified = 5 ∧
        ({ annoW2 with created := annoW.created, modified := 5 } : Anno).target = annoW2.target ∧
        ({ annoW2 with created := annoW.created, modified := 5 } : Anno).motivation
          = annoW2.motivation ∧
        alookup s2.annos annoW2.id
          = some { annoW2 with created := annoW.created, modified := 5 } ∧
        ∀ t, (∃ b, alookup s2.target_index t = some b ∧ annoW2.id ∈ b)
          ↔ t ∈ annoW2.target.map Target.id) ∧
    (alookup storeE.annos annoW2.id = none ∧
      update_anno storeE annoW2 5
        = .error (.notFoundError ("Annotation with id " ++ annoW2.id ++ " does not exist"))) :=
  ⟨⟨by decide, (update_anno_spec storeW annoW2 5).1 annoW (by decide)⟩,
   ⟨rfl, (update_anno_spec storeE annoW2 5).2 rfl⟩⟩

/-- C1: End-to-end update propagation along an annotation chain.  For
annotation X targeting terminal resource R (any non-Annotation target
type and any resource ids distinct from each other and from the two ids
the store assigns), and annotation Y whose single target is X with type
Annotation: the target query for R after both adds returns exactly X
and Y; after X's target is updated from R to R2 and propagation
completes, the target query for R2 returns exactly X and Y and the
target query for R returns neither. -/
theorem chain_update_propagation (R R2 TR : String) (hTR : TR ≠ "Annotation")
    (hRR : R ≠ R2) (h1 : R ≠ genId 0) (h2 : R ≠ genId 1) (h3 : R2 ≠ genId 0)
    (h4 : R2 ≠ genId 1) :
    chainUpdateScenario R R2 TR = some ([genId 0, genId 1], [genId 0, genId 1], []) := by
  have g01 : genId 0 ≠ genId 1 := by decide
  have gA0 : genId 0 ≠ "Annotation" := by decide
  have gA1 : genId 1 ≠ "Annotation" := by decide
  simp [chainUpdateScenario, add_anno_es, update_anno_es, mkAnnoRec, add_to_index, hasDoc,
    indexTargetList, envOfIndex, resolve, succTargets, alookup, lookupById,
    queryTargetIds, replaceDoc, propagate,
    hTR, hRR, h1, h2, h3, h4, g01, gA0, gA1,
    Ne.symm hRR, Ne.symm h1, Ne.symm h2, Ne.symm h3, Ne.symm h4, Ne.symm g01]

/-- Witness for C1 at the test fixture values: the hypotheses hold and
the scenario produces the claimed query results. -/
theorem chain_update_propagation_witness :
    ("Letter" : String) ≠ "Annotation" ∧
    ("urn:vangogh:testletter" : String) ≠ "urn:vangogh:differentletter" ∧
    ("urn:vangogh:testletter" : String) ≠ genId 0 ∧
    ("urn:vangogh:testletter" : String) ≠ genId 1 ∧
    ("urn:vangogh:differentletter" : String) ≠ genId 0 ∧
    ("urn:vangogh:differentletter" : String) ≠ genId 1 ∧
    chainUpdateScenario "urn:vangogh:testletter" "urn:vangogh:differentletter" "Letter"
      = some ([genId 0, genId 1], [genId 0, genId 1], []) :=
  ⟨by decide, by decide, by decide, by decide, by decide, by decide,
   chain_update_propagation "urn:vangogh:testletter" "urn:vangogh:differentletter" "Letter"
     (by decide) (by decide) (by decide) (by decide) (by decide) (by decide)⟩

/-- C2: End-to-end delete propagation along an annotation chain.  For
annotation X targeting terminal resource R and annotation Y whose single
target is X with type Annotation, the target query for R after both
adds returns exactly X and Y, and after X is deleted and propagation
completes the target query for R returns zero results: X is deleted and
Y's chain through the deleted X resolves down to nothing. -/
theorem chain_delete_propagation (R TR : String) (hTR : TR ≠ "Annotation")
    (h1 : R ≠ genId 0) (h2 : R ≠ genId 1) :
    chainDeleteScenario R TR = some ([genId 0, genId 1], []) := by
  have g01 : genId 0 ≠ genId 1 := by decide
  have gA0 : genId 0 ≠ "Annotation" := by decide
  have gA1 : genId 1 ≠ "Annotation" := by decide
  simp [chainDeleteScenario, add_anno_es, remove_anno_es, mkAnnoRec, add_to_index, hasDoc,
    indexTargetList, envOfIndex, resolve, succTargets, alookup, lookupById,
    queryTargetIds, replaceDoc, deleteDoc, propagate,
    hTR, h1, h2, g01, gA0, gA1,
    Ne.symm h1, Ne.symm h2, Ne.symm g01]

/-- Witness for C2 at the test fixture values. -/
theorem chain_delete_propagation_witness :
    ("Letter" : String) ≠ "Annotation" ∧
    ("urn:vangogh:testletter" : String) ≠ genId 0 ∧
    ("urn:vangogh:testletter" : String) ≠ genId 1 ∧
    chainDeleteScenario "urn:vangogh:testletter" "Letter" = some ([genId 0, genId 1], []) :=
  ⟨by decide, by decide, by decide,
   chain_delete_propagation "urn:vangogh:testletter" "Letter" (by decide) (by decide) (by decide)⟩

theorem alookup_psp_ne (r : HRequest) (p : Params) (k : String) (hk : k ≠ "filter") :
    alookup (parse_search_parameters r p) k = alookup p k := by
  simp only [parse_search_parameters]
  rcases hti : alookup r.args "target_id" with _ | ti <;>
    rcases htt : alookup r.args "target_type" with _ | tt <;>
      simp only [hti, htt] <;>
      split_ifs <;>
      simp [alookup_dictSet_ne, hk]

theorem alookup_dr_ne (r : HRequest) (p : Params) (k : String)
    (hk : k ≠ "include_permissions") :
    alookup (determine_representation r p) k = alookup p k := by
  simp only [determine_representation]
  split_ifs <;> simp [alookup_dictSet_ne, hk]

theorem alookup_dat_ne (r : HRequest) (p : Params) (k : String) (hk : k ≠ "type") :
    alookup (determine_anno_type r p) k = alookup p k := by
  simp only [determine_anno_type]
  rcases h : alookup r.args "type" with _ | t <;> simp only [h] <;>
    simp [alookup_dictSet_ne, hk]

theorem alookup_tail_ne (r : HRequest) (p : Params) (k : String) (hk1 : k ≠ "filter")
    (hk2 : k ≠ "include_permissions") (hk3 : k ≠ "type") :
    alookup (parse_search_parameters r (determine_representation r (determine_anno_type r p))) k
      = alookup p k := by
  rw [alookup_psp_ne r _ k hk1, alookup_dr_ne r _ k hk2, alookup_dat_ne r _ k hk3]

/-- C9 counterexample: the claim fails as stated on the code.  The
request reqPageIris contains a page parameter, get_params succeeds, yet
the returned view is PreferContainedDescriptions, not
PreferContainedIRIs, because the iris parameter equal to 0 overwrites
the view that the page branch had set. -/
theorem page_view_counterexample :
    alookup reqPageIris.args "page" = some "1" ∧
    get_params reqPageIris true = .ok pageIrisParams ∧
    alookup pageIrisParams "view" = some (.str "PreferContainedDescriptions") ∧
    ¬ alookup pageIrisParams "view" = some (.str "PreferContainedIRIs") :=
  ⟨rfl, rfl, rfl, by decide⟩

/-- C9 amended: for every request whose query string contains a page
parameter and for which get_params returns successfully, the returned
dict still maps the key page to 0 while the parsed integer page number
sits under the distinct key consisting of page followed by a space, and
view is PreferContainedIRIs unless the request also carries an iris
parameter parsing to 0, in which case view is
PreferContainedDescriptions. -/
theorem page_param_keys_amended (r : HRequest) (ps : Params) (s : String)
    (h : get_params r true = .ok ps) (hp : alookup r.args "page" = some s) :
    ∃ n : Int, pyInt s = .ok n ∧
      alookup ps "page" = some (.int 0) ∧
      alookup ps "page " = some (.int n) ∧
      (match alookup r.args "iris" with
       | none => alookup ps "view" = some (.str "PreferContainedIRIs")
       | some si => ∃ m : Int, pyInt si = .ok m ∧
           alookup ps "view" = some (.str
             (if m = 0 then "PreferContainedDescriptions" else "PreferContainedIRIs"))) := by
  rw [get_params] at h
  split at h
  · exact Except.noConfusion h
  rename_i p1 hih
  split at h
  · exact Except.noConfusion h
  rename_i p2 hda
  split at h
  · exact Except.noConfusion h
  rename_i p3 hpv
  injection h with hps
  subst hps
  simp only [determine_page_view, hp] at hpv
  split at hpv
  · exact Except.noConfusion hpv
  rename_i n hpy
  refine ⟨n, hpy, ?_⟩
  simp only [applyIris] at hpv
  split at hpv
  · rename_i hir
    injection hpv with hq
    subst hq
    refine ⟨?_, ?_, ?_⟩
    · rw [alookup_tail_ne r _ "page" (by decide) (by decide) (by decide)]
      rw [alookup_dictSet_ne _ _ _ _ (by decide : ("page" : String) ≠ "view")]
      rw [alookup_dictSet_ne _ _ _ _ (by decide : ("page" : String) ≠ "page ")]
      exact alookup_dictSet_same _ _ _
    · rw [alookup_tail_ne r _ "page " (by decide) (by decide) (by decide)]
      rw [alookup_dictSet_ne _ _ _ _ (by decide : ("page " : String) ≠ "view")]
      exact alookup_dictSet_same _ _ _
    · rw [alookup_tail_ne r _ "view" (by decide) (by decide) (by decide)]
      exact alookup_dictSet_same _ _ _
  · rename_i si hir
    split at hpv
    · exact Except.noConfusion hpv
    rename_i m hpm
    split at hpv
    · rename_i hm
      injection hpv with hq
      subst hq
      refine ⟨?_, ?_, m, hpm, ?_⟩
      · rw [alookup_tail_ne r _ "page" (by decide) (by decide) (by decide)]
        rw [alookup_dictSet_ne _ _ _ _ (by decide : ("page" : String) ≠ "view")]
        rw [alookup_dictSet_ne _ _ _ _ (by decide : ("page" : String) ≠ "iris")]
        rw [alookup_dictSet_ne _ _ _ _ (by decide : ("page" : String) ≠ "view")]
        rw [alookup_dictSet_ne _ _ _ _ (by decide : ("page" : String) ≠ "page ")]
        exact alookup_dictSet_same _ _ _
      · rw [alookup_tail_ne r _ "page " (by decide) (by decide) (by decide)]
        rw [alookup_dictSet_ne _ _ _ _ (by decide : ("page " : String) ≠ "view")]
        rw [alookup_dictSet_ne _ _ _ _ (by decide : ("page " : String) ≠ "iris")]
        rw [alookup_dictSet_ne _ _ _ _ (by decide : ("page " : String) ≠ "view")]
        exact alookup_dictSet_same _ _ _
      · rw [alookup_tail_ne r _ "view" (by decide) (by decide) (by decide)]
        rw [if_pos hm]
        exact alookup_dictSet_same _ _ _
    · rename_i hm
      injection hpv with hq
      subst hq
      refine ⟨?_, ?_, m, hpm, ?_⟩
      · rw [alookup_tail_ne r _ "page" (by decide) (by decide) (by decide)]
        rw [alookup_dictSet_ne _ _ _ _ (by decide : ("page" : String) ≠ "iris")]
        rw [alookup_dictSet_ne _ _ _ _ (by decide : ("page" : String) ≠ "view")]
        rw [alookup_dictSet_ne _ _ _ _ (by decide : ("page" : String) ≠ "page ")]
        exact alookup_dictSet_same _ _ _
      · rw [alookup_tail_ne r _ "page " (by decide) (by decide) (by decide)]
        rw [alookup_dictSet_ne _ _ _ _ (by decide : ("page " : String) ≠ "iris")]
        rw [alookup_dictSet_ne _ _ _ _ (by decide : ("page " : String) ≠ "view")]
        exact alookup_dictSet_same _ _ _
      · rw [alookup_tail_ne r _ "view" (by decide) (by decide) (by decide)]
        rw [alookup_dictSet_ne _ _ _ _ (by decide : ("view" : String) ≠ "iris")]
        rw [if_neg hm]
        exact alookup_dictSet_same _ _ _

/-- Witness for the amended C9 at a concrete request with page and no
iris: the hypotheses hold and the conclusion follows by applying the
theorem. -/
theorem page_param_keys_amended_witness :
    get_params reqPage true = .ok reqPageParams ∧
    alookup reqPage.args "page" = some "5" ∧
    (∃ n : Int, pyInt "5" = .ok n ∧
      alookup reqPageParams "page" = some (.int 0) ∧
      alookup reqPageParams "page " = some (.int n) ∧
      (match alookup reqPage.args "iris" with
       | none => alookup reqPageParams "view" = some (.str "PreferContainedIRIs")
       | some si => ∃ m : Int, pyInt si = .ok m ∧
           alookup reqPageParams "view" = some (.str
             (if m = 0 then "PreferContainedDescriptions" else "PreferContainedIRIs")))) :=
  ⟨rfl, rfl, page_param_keys_amended reqPage reqPageParams "5" rfl rfl⟩

/-- C10: For every request supplying both a non-empty target_id and a
non-empty target_type query parameter, parse_search_parameters leaves
the filter key holding only the target_type entry: the filter dict
built from target_id is overwritten by the one built from target_type,
not merged with it. -/
theorem filter_overwritten_by_target_type (r : HRequest) (p : Params) (ti tt : String)
    (h1 : alookup r.args "target_id" = some ti) (h2 : ti ≠ "")
    (h3 : alookup r.args "target_type" = some tt) (h4 : tt ≠ "") :
    alookup (parse_search_parameters r p) "filter"
      = some (.filt [("target_type", splitOnCh (Char.ofNat 44) tt)]) := by
  simp only [parse_search_parameters, h1, h3]
  rw [if_neg h4]
  exact alookup_dictSet_same _ _ _

/-- Witness for C10 at a concrete request carrying both parameters. -/
theorem filter_overwritten_by_target_type_witness :
    alookup reqFilter.args "target_id" = some "urn:a,urn:b" ∧
    ("urn:a,urn:b" : String) ≠ "" ∧
    alookup reqFilter.args "target_type" = some "Letter" ∧
    ("Letter" : String) ≠ "" ∧
    alookup (parse_search_parameters reqFilter []) "filter"
      = some (.filt [("target_type", splitOnCh (Char.ofNat 44) "Letter")]) :=
  ⟨rfl, by decide, rfl, by decide,
   filter_overwritten_by_target_type reqFilter [] "urn:a,urn:b" "Letter"
     rfl (by decide) rfl (by decide)⟩
